import Mathlib

/-!
Verification development for saraki's `endpoints.py` (the auto-generated REST
endpoint module).  The definitions below are a shallow embedding of the source:
the query-string modifier parser (`Collection._parse_query_string`), the
collection query pipeline (`Collection.__call__` and the `_*_modifier`
helpers), the `json` view decorator, the generic item view (`item_view`) and
the route generator (`_generate_route_rules` / `add_resource`).

External collaborators of the module (flask's JSON decoder, the Cerberus-based
`Validator`, SQLAlchemy query execution, and the helpers of `saraki.utility`
that are not part of the sources) are modelled from the specification; each
such definition carries a doc comment saying so.
-/

namespace Saraki

/-- Scalar values: SQL cells and JSON scalar literals (null, booleans,
integers, strings).  Database columns hold scalars. -/
inductive Scalar where
  | null
  | bool (b : Bool)
  | int (n : Int)
  | str (s : String)
deriving DecidableEq, Repr

/-- A JSON value one level below the top: either a scalar or an array of
scalars.  This covers every shape the endpoints consume (the `f` entry of a
`search` modifier is an array of column names; all other consumed values are
scalars). -/
inductive JVal where
  | scalar (v : Scalar)
  | arrS (xs : List Scalar)
deriving DecidableEq, Repr

/-- A decoded JSON document as produced by the JSON decoder for the
query-string values of `select`, `search` and `filter`. -/
inductive Json where
  | scalar (v : Scalar)
  | arr (xs : List Scalar)
  | obj (fields : List (String × JVal))
deriving DecidableEq, Repr

/-- A database record: an association list from column names to scalar
values (one entry per column of the model). -/
abbrev Record := List (String × Scalar)

/-- Python types of columns as exposed by `column.type.python_type`. -/
inductive PyType where
  | int
  | str
  | bool
  | other
deriving DecidableEq, Repr

/-- A declarative model class as the module introspects it: table name,
columns (name and python type, in declaration order) and the ordered
primary-key column names. -/
structure ModelCls where
  tablename : String
  columns : List (String × PyType)
  primaryKey : List String
deriving DecidableEq, Repr

/-- Column names of the model, `[column.name for column in mapper.c]`. -/
def ModelCls.colNames (m : ModelCls) : List String := m.columns.map Prod.fst

/-- Column lookup: `getattr(cls, name)` / `mapper.c[name]` succeeds exactly
when the name is a column of the model, and yields its python type. -/
def ModelCls.colType (m : ModelCls) (name : String) : Option PyType :=
  m.columns.lookup name

/-- The `hasattr(Model, "org_id")` test: the model attributes relevant here
are its columns. -/
def ModelCls.hasOrgId (m : ModelCls) : Bool := m.colNames.contains "org_id"

/-! ### Python dictionary operations (insertion-ordered association lists) -/

/-- Python `d[k] = v`: replace the value in place when the key exists,
otherwise append the new binding at the end. -/
def dictSet (d : List (String × α)) (k : String) (v : α) : List (String × α) :=
  if (d.lookup k).isSome then
    d.map (fun p => if p.1 = k then (k, v) else p)
  else
    d ++ [(k, v)]

/-- Python `d.update(other)`: set every binding of `other` into `d`, in
order; an existing key keeps its position but receives the new value. -/
def dictUpdate (d other : List (String × α)) : List (String × α) :=
  other.foldl (fun acc p => dictSet acc p.1 p.2) d

/-! ### String helpers (character-list models of the Python operations) -/

/-- Python `str.split(sep)` for a one-character separator, on the character
list: `"".split(",") = [""]`, and every separator occurrence splits. -/
def splitCharAux (c : Char) : List Char → List (List Char)
  | [] => [[]]
  | x :: xs =>
    let r := splitCharAux c xs
    if x = c then [] :: r
    else
      match r with
      | [] => [[x]]
      | h :: t => (x :: h) :: t

/-- Python `s.split(c)` for a single-character separator. -/
def splitChar (c : Char) (s : String) : List String :=
  (splitCharAux c s.data).map (fun l => ⟨l⟩)

/-- Python `sep.join(parts)`. -/
def joinStrs (sep : String) : List String → String
  | [] => ""
  | [x] => x
  | x :: y :: rest => x ++ sep ++ joinStrs sep (y :: rest)

/-- Lower-case a string character by character (for case-insensitive
matching). -/
def lowerStr (s : String) : String := ⟨s.data.map Char.toLower⟩

/-- Boolean test: the first list is an initial segment of the second. -/
def listPref : List Char → List Char → Bool
  | [], _ => true
  | _ :: _, [] => false
  | a :: as, b :: bs => a = b && listPref as bs

/-- Boolean test: `needle` occurs contiguously inside `hay`. -/
def listSub (needle : List Char) : List Char → Bool
  | [] => listPref needle []
  | c :: rest => listPref needle (c :: rest) || listSub needle rest

/-- Python `s.startswith("-")`. -/
def strStartsDash (s : String) : Bool :=
  match s.data with
  | '-' :: _ => true
  | _ => false

/-- Python `s[1:]`. -/
def strDropHead (s : String) : String := ⟨s.data.drop 1⟩

/-- Python `s[:-1]`: drop the last character. -/
def strDropLast (s : String) : String := ⟨s.data.dropLast⟩

/-- Digit-string to number; fails on the empty string or any non-digit. -/
def digitsToNat (l : List Char) : Option Nat :=
  if l.isEmpty then none
  else
    l.foldl
      (fun acc c =>
        acc.bind fun n => if c.isDigit then some (n * 10 + (c.toNat - 48)) else none)
      (some 0)

/-- Python `int(s)` restricted to an optional sign followed by digits (the
forms the query string carries); anything else fails, which Cerberus reports
as a coercion/type error. -/
def pyToInt (s : String) : Option Int :=
  match s.data with
  | '-' :: rest => (digitsToNat rest).map (fun n => -(n : Int))
  | '+' :: rest => (digitsToNat rest).map (fun n => (n : Int))
  | l => (digitsToNat l).map (fun n => (n : Int))

/-! ### Python value semantics -/

/-- Python truthiness of a scalar (`if flag:`). -/
def pyTruthy : Scalar → Bool
  | .null => false
  | .bool b => b
  | .int n => n != 0
  | .str s => !s.isEmpty

/-- Python `str()` of a scalar, as interpolated by an f-string. -/
def pyStr : Scalar → String
  | .null => "None"
  | .bool true => "True"
  | .bool false => "False"
  | .int n => toString n
  | .str s => s

/-- Textual representation of a stored cell as the database compares it:
a string cell is its own text, a non-string cell is rendered by
`cast(column, Text)`; a NULL cell never matches a pattern, modelled as the
empty text.  (Modelled from the spec: the cast/`ilike` execution happens in
the external persistence engine.) -/
def textRepr : Scalar → String
  | .null => ""
  | .bool true => "true"
  | .bool false => "false"
  | .int n => toString n
  | .str s => s

/-- Modelled from the spec: `column.ilike("%term%")` is a case-insensitive
substring match anywhere in the textual representation.  (Wildcard characters
inside the term itself are not modelled.) -/
def ilikeMatch (cell : String) (term : String) : Bool :=
  listSub (lowerStr term).data (lowerStr cell).data

/-! ### Modifier set -/

/-- The normalized `search` modifier `{"t": term, "f": fields}`. -/
structure Search where
  t : Scalar
  f : List String
deriving DecidableEq, Repr

/-- The normalized modifier set produced by
`Collection._parse_query_string`; absent keys are `none`. -/
structure Modifiers where
  select : Option (List (String × Scalar)) := none
  search : Option Search := none
  filter : Option (List (String × Scalar)) := none
  sort : Option String := none
  limit : Option Int := none
  page : Option Int := none
deriving DecidableEq, Repr

/-! ### The modifier stages of `Collection` -/

/-- `Collection._filter_modifier`: `query.filter_by(**filters)`, an equality
conjunction over all named filters. -/
def filter_modifier (query : List Record) (filters : List (String × Scalar)) :
    List Record :=
  query.filter (fun r => filters.all (fun p => r.lookup p.1 = some p.2))

/-- `Collection._parse_select_modifier`: split the select mapping into the
include-list (truthy flags) and the exclude-list (falsy flags), preserving
order.  The source only places a list into the params dict when it is
non-empty; `export_record` below treats an empty list as the absent
default, so the two formulations agree. -/
def parse_select_modifier : List (String × Scalar) → List String × List String
  | [] => ([], [])
  | (k, flag) :: rest =>
    let p := parse_select_modifier rest
    if pyTruthy flag then (k :: p.1, p.2) else (p.1, k :: p.2)

/-- Modelled from the spec: `export_from_sqla_object` (in `saraki.utility`,
not part of the sources) shapes a record: a non-empty include-list keeps only
those fields, and the exclude-list removes fields from whatever remains. -/
def export_record (incl excl : List String) (r : Record) : Record :=
  let base := if incl.isEmpty then r else r.filter (fun p => incl.contains p.1)
  base.filter (fun p => !(excl.contains p.1))

/-- `Collection._search_modifier`, the per-column part: resolve every listed
field on the model (`getattr(cls, column_name)` / `mapper.c[column_name]`),
failing with an attribute error on an unknown column. -/
def search_columns (model : ModelCls) : List String → Except String (List (String × PyType))
  | [] => .ok []
  | cn :: rest =>
    match model.colType cn with
    | none => .error "AttributeError"
    | some ty =>
      match search_columns model rest with
      | .error e => .error e
      | .ok l => .ok ((cn, ty) :: l)

/-- The record predicate built by `Collection._search_modifier`: the OR of
the per-field case-insensitive `%term%` matches.  A non-string column is
cast to text first; in this model the cast of a scalar coincides with its
textual representation, so both branches use `textRepr`. -/
def search_pred (term : String) (tys : List (String × PyType)) (r : Record) : Bool :=
  tys.any (fun ct => ilikeMatch (textRepr ((r.lookup ct.1).getD .null)) term)

/-- `Collection._search_modifier`: `query.filter(or_(*filters))` with one
`ilike` clause per listed field. -/
def search_modifier (model : ModelCls) (query : List Record) (s : Search) :
    Except String (List Record) :=
  match search_columns model s.f with
  | .error e => .error e
  | .ok tys => .ok (query.filter (search_pred (pyStr s.t) tys))

/-- Rank of a scalar for the modelled database ordering. -/
def scalarRank : Scalar → Nat
  | .null => 0
  | .bool _ => 1
  | .int _ => 2
  | .str _ => 3

/-- Lexicographic character-list comparison. -/
def charListLe : List Char → List Char → Bool
  | [], _ => true
  | _ :: _, [] => false
  | a :: as, b :: bs => if a = b then charListLe as bs else a.toNat ≤ b.toNat

/-- Modelled from the spec: a total comparison on scalars standing in for
the external database's ORDER BY comparison (no claim depends on the exact
order, only on an order being applied). -/
def scalarLe (a b : Scalar) : Bool :=
  if scalarRank a = scalarRank b then
    match a, b with
    | .int x, .int y => x ≤ y
    | .str x, .str y => charListLe x.data y.data
    | .bool x, .bool y => !x || y
    | _, _ => true
  else
    scalarRank a ≤ scalarRank b

/-- Record comparison for a list of sort keys `(column, descending)`,
left-to-right priority. -/
def recLe (keys : List (String × Bool)) (r1 r2 : Record) : Bool :=
  match keys with
  | [] => true
  | (k, dsc) :: rest =>
    let v1 := (r1.lookup k).getD Scalar.null
    let v2 := (r2.lookup k).getD Scalar.null
    if v1 = v2 then recLe rest r1 r2
    else if dsc then scalarLe v2 v1 else scalarLe v1 v2

/-- Insertion into a sorted list (used to model ORDER BY). -/
def insertLe (le : Record → Record → Bool) (x : Record) : List Record → List Record
  | [] => [x]
  | y :: ys => if le x y then x :: y :: ys else y :: insertLe le x ys

/-- Modelled from the spec: the external database's ORDER BY, as an
insertion sort under the given comparison. -/
def sortRecords (le : Record → Record → Bool) : List Record → List Record
  | [] => []
  | x :: xs => insertLe le x (sortRecords le xs)

/-- `Collection._sort_modifier`, key-resolution part: split the sort string
on commas, a `-` prefix selects descending order, and each name is resolved
with `getattr(cls, name)`, which fails on a non-column name. -/
def sort_keys (model : ModelCls) : List String → Except String (List (String × Bool))
  | [] => .ok []
  | cn :: rest =>
    if strStartsDash cn then
      match model.colType (strDropHead cn) with
      | none => .error "AttributeError"
      | some _ =>
        match sort_keys model rest with
        | .error e => .error e
        | .ok l => .ok ((strDropHead cn, true) :: l)
    else
      match model.colType cn with
      | none => .error "AttributeError"
      | some _ =>
        match sort_keys model rest with
        | .error e => .error e
        | .ok l => .ok ((cn, false) :: l)

/-- `Collection._sort_modifier`: `query.order_by(*sorting)` after resolving
the comma-separated sort keys. -/
def sort_modifier (model : ModelCls) (query : List Record) (sort : String) :
    Except String (List Record) :=
  match sort_keys model (splitChar ',' sort) with
  | .error e => .error e
  | .ok keys => .ok (sortRecords (recLe keys) query)

/-- Modelled from the spec: the persistence collaborator's
`query.paginate(page, limit)` — one page of `limit` records starting at
offset `(page - 1) * limit`, plus the total count of matching records. -/
def paginate (query : List Record) (page limit : Int) : List Record × Nat :=
  ((query.drop ((page - 1) * limit).toNat).take limit.toNat, query.length)

/-- The collection response: exported items plus the `X-Total` and `X-Page`
header values. -/
structure CollectionResult where
  items : List Record
  total : Nat
  page : Int
deriving DecidableEq, Repr

/-- The filter/search/sort stages of `Collection.__call__`: start from the
implicit tenant filter when the model has an `org_id` attribute, merge the
client `filter` modifier by `dict.update`, then apply the filter, search
and sort stages in the source's order. -/
def collectionPrepare (model : ModelCls) (query0 : List Record)
    (current_org_id : Scalar) (m : Modifiers) : Except String (List Record) :=
  let filters0 : List (String × Scalar) :=
    if model.hasOrgId then [("org_id", current_org_id)] else []
  let filters :=
    match m.filter with
    | some f => dictUpdate filters0 f
    | none => filters0
  let q1 := if filters.isEmpty then query0 else filter_modifier query0 filters
  match (match m.search with
         | some s => search_modifier model q1 s
         | none => Except.ok q1) with
  | .error e => .error e
  | .ok q2 =>
    match m.sort with
    | some s => sort_modifier model q2 s
    | none => Except.ok q2

/-- The body of the wrapper built by `Collection.__call__`: the filter,
search and sort stages of `collectionPrepare`, then pagination and the
select projection, with the `X-Total` and `X-Page` metadata. -/
def collectionCall (default_limit max_limit : Int) (model : ModelCls)
    (query0 : List Record) (current_org_id : Scalar) (m : Modifiers) :
    Except String CollectionResult :=
  match collectionPrepare model query0 current_org_id m with
  | .error e => .error e
  | .ok q3 =>
    let page := m.page.getD 1
    let limit := min (m.limit.getD default_limit) max_limit
    let pr := paginate q3 page limit
    let params :=
      match m.select with
      | some sel => parse_select_modifier sel
      | none => ([], [])
    Except.ok
      { items := pr.fst.map (export_record params.fst params.snd),
        total := pr.snd,
        page := page }

/-! ### Query-string parsing (`Collection._parse_query_string`) -/

/-- The reserved keys whose values are JSON-encoded. -/
def json_keys : List String := ["select", "search", "filter"]

/-- A decoded query-string value: JSON for the reserved keys, the raw
string otherwise. -/
inductive QVal where
  | json (j : Json)
  | raw (s : String)
deriving DecidableEq, Repr

/-- The decode loop of `Collection._parse_query_string`: walk the query
string in order; a JSON key whose value fails to decode raises
`ValidationError({key: "Invalid JSON string"})` immediately.  The decoder
itself (flask's `json_loads`) is an external collaborator and is passed as
an argument. -/
def decode_qs (loads : String → Option Json) :
    List (String × String) → Except (List (String × String)) (List (String × QVal))
  | [] => .ok []
  | (k, v) :: rest =>
    if json_keys.contains k then
      match loads v with
      | some j =>
        match decode_qs loads rest with
        | .error e => .error e
        | .ok d => .ok ((k, .json j) :: d)
      | none => .error [(k, "Invalid JSON string")]
    else
      match decode_qs loads rest with
      | .error e => .error e
      | .ok d => .ok ((k, .raw v) :: d)

/-- Cerberus `{"type": "integer"}` on a decoded JSON value: Python `bool`
is a subclass of `int`, so both integers and booleans pass. -/
def isIntegerJV : JVal → Bool
  | .scalar (.int _) => true
  | .scalar (.bool _) => true
  | _ => false

/-- Modelled from the spec: the per-column validation rule produced by
`generate_schema` (in `saraki.utility`, not part of the sources) — a value
satisfies a column's rule exactly when its JSON type matches the column's
python type (a boolean also counting as an integer). -/
def columnRuleOk : PyType → JVal → Bool
  | .int, v => isIntegerJV v
  | .str, .scalar (.str _) => true
  | .bool, .scalar (.bool _) => true
  | .other, _ => true
  | _, _ => false

/-- Validation errors of the `select` entry against
`{"type": "dict", "allowed": columns, "valueschema": {"type": "integer"}}`:
every key must be a column name and every value an integer. -/
def select_errors (model : ModelCls) : List (String × JVal) → List (String × String)
  | [] => []
  | (k, v) :: rest =>
    (if model.colNames.contains k then [] else [("select", "unallowed value")]) ++
    (if isIntegerJV v then [] else [("select", "must be of integer type")]) ++
    select_errors model rest

/-- Validation errors of one element of the `f` list of `search` against
`{"type": "list", "allowed": columns}`. -/
def search_field_errors (model : ModelCls) : List Scalar → List (String × String)
  | [] => []
  | .str s :: rest =>
    (if model.colNames.contains s then [] else [("search", "unallowed value")]) ++
    search_field_errors model rest
  | _ :: rest => ("search", "unallowed value") :: search_field_errors model rest

/-- Validation errors of the `search` entry against
`{"type": "dict", "schema": {"t": {"required": True},
"f": {"required": True, "type": "list", "allowed": columns}}}`. -/
def search_errors (model : ModelCls) (fs : List (String × JVal)) :
    List (String × String) :=
  (if (fs.lookup "t").isSome then [] else [("search", "required field")]) ++
  (match fs.lookup "f" with
   | none => [("search", "required field")]
   | some (.arrS xs) => search_field_errors model xs
   | some (.scalar _) => [("search", "must be of list type")]) ++
  (fs.filterMap (fun p =>
    if p.1 = "t" || p.1 = "f" then none else some (("search", "unknown field"))))

/-- Validation errors of a document against the model's own schema
(`generate_schema(cls)`): keys must be column names and values must satisfy
the per-column rule.  Used both for the `filter` modifier and for write
payload validation. -/
def schema_errors (key : String) (model : ModelCls) :
    List (String × JVal) → List (String × String)
  | [] => []
  | (k, v) :: rest =>
    (match model.colType k with
     | none => [(key, "unknown field")]
     | some ty => if columnRuleOk ty v then [] else [(key, "must match the column type")]) ++
    schema_errors key model rest

/-- Modelled from the spec: the Cerberus validation of one decoded
query-string entry against the `query_string_schema` literal of the source
(`select`/`search`/`filter` as above, `sort` unconstrained, `limit` and
`page` coerced integers, anything else an unknown field). -/
def validate_entry (model : ModelCls) : String × QVal → List (String × String)
  | ("select", .json (.obj fs)) => select_errors model fs
  | ("select", _) => [("select", "must be of dict type")]
  | ("search", .json (.obj fs)) => search_errors model fs
  | ("search", _) => [("search", "must be of dict type")]
  | ("filter", .json (.obj fs)) => schema_errors "filter" model fs
  | ("filter", _) => [("filter", "must be of dict type")]
  | ("sort", _) => []
  | ("limit", .raw s) => if (pyToInt s).isSome then [] else [("limit", "must be of integer type")]
  | ("limit", _) => [("limit", "must be of integer type")]
  | ("page", .raw s) => if (pyToInt s).isSome then [] else [("page", "must be of integer type")]
  | ("page", _) => [("page", "must be of integer type")]
  | (k, _) => [(k, "unknown field")]

/-- All validation errors of the decoded query string, aggregated across
every entry (Cerberus collects every failing field before reporting). -/
def validate_qs (model : ModelCls) (d : List (String × QVal)) :
    List (String × String) :=
  d.foldl (fun acc e => acc ++ validate_entry model e) []

/-- Post-validation scalarization of a decoded value (after validation the
relevant values are scalars). -/
def jvalToScalar : JVal → Scalar
  | .scalar v => v
  | .arrS _ => .null

/-- The string elements of a decoded `f` list. -/
def strListOf : JVal → List String
  | .arrS xs => xs.filterMap (fun v => match v with | Scalar.str s => some s | _ => none)
  | .scalar _ => []

/-- Build the normalized modifier set from one decoded entry
(`v.normalized(decoded_qs)`): the reserved keys keep their decoded
structure, `sort` keeps the raw string, `limit` and `page` are coerced to
integers. -/
def normalize_step (m : Modifiers) (e : String × QVal) : Modifiers :=
  if e.1 = "select" then
    match e.2 with
    | .json (.obj fs) => { m with select := some (fs.map (fun p => (p.1, jvalToScalar p.2))) }
    | _ => m
  else if e.1 = "search" then
    match e.2 with
    | .json (.obj fs) =>
      { m with search := some { t := jvalToScalar ((fs.lookup "t").getD (.scalar .null)),
                                f := strListOf ((fs.lookup "f").getD (.arrS [])) } }
    | _ => m
  else if e.1 = "filter" then
    match e.2 with
    | .json (.obj fs) => { m with filter := some (fs.map (fun p => (p.1, jvalToScalar p.2))) }
    | _ => m
  else if e.1 = "sort" then
    match e.2 with
    | .raw s => { m with sort := some s }
    | _ => m
  else if e.1 = "limit" then
    match e.2 with
    | .raw s => { m with limit := pyToInt s }
    | _ => m
  else if e.1 = "page" then
    match e.2 with
    | .raw s => { m with page := pyToInt s }
    | _ => m
  else m

/-- Normalization over the whole decoded query string. -/
def normalize_qs (d : List (String × QVal)) : Modifiers :=
  d.foldl normalize_step {}

/-- `Collection._parse_query_string`: decode the JSON-encoded keys (raising
on the first decode failure), then validate everything against the dynamic
schema, aggregating all validation errors, and finally normalize. -/
def parse_query_string (loads : String → Option Json) (model : ModelCls)
    (qs : List (String × String)) : Except (List (String × String)) Modifiers :=
  match decode_qs loads qs with
  | .error e => .error e
  | .ok d =>
    if (validate_qs model d).isEmpty then .ok (normalize_qs d)
    else .error (validate_qs model d)

/-! ### The `json` view decorator -/

/-- The request attributes the `json` decorator consults:
`request.method`, `request.is_json` (a JSON content type) and
`request.get_json(silent=True)` (`none` when the body is unparseable or the
content type is not JSON). -/
structure Request where
  method : String
  isJson : Bool
  jsonSilent : Option Json
deriving DecidableEq, Repr

/-- The pre-validation of the `json` decorator's wrapper: only `POST`
requests are checked — a non-JSON content type aborts with 415, an
unparseable body aborts with 400; every other method passes straight
through to the view function. -/
def json_precheck (req : Request) : Option Nat :=
  if req.method = "POST" then
    if !req.isJson then some 415
    else if req.jsonSilent = none then some 400
    else none
  else none

/-- The `json` decorator around a (state-passing) view function: abort with
the pre-check status before the view runs, otherwise run the view. -/
def json_wrapped (req : Request) (view : List Record → α × List Record)
    (db : List Record) : Except Nat α × List Record :=
  match json_precheck req with
  | some status => (.error status, db)
  | none =>
    let r := view db
    (.ok r.fst, r.snd)

/-! ### The generic item view (`item_view`) -/

/-- Response of `item_view`. -/
inductive ItemResp where
  | ok (r : Record)
  | notFound
  | invalid (errs : List (String × String))
  | serverError
deriving DecidableEq, Repr

/-- Result of `.one()` on a filtered query. -/
inductive OneErr where
  | noResult
  | multiple
deriving DecidableEq, Repr

/-- `modelcls.query.filter_by(**ident).one()`: exactly one matching record,
`NoResultFound` on zero, `MultipleResultsFound` on several. -/
def filter_by_one (db : List Record) (ident : List (String × Scalar)) :
    Except OneErr Record :=
  match db.filter (fun r => ident.all (fun p => r.lookup p.1 = some p.2)) with
  | [r] => .ok r
  | [] => .error .noResult
  | _ => .error .multiple

/-- Remove the first occurrence of a record (the session delete of the
looked-up object). -/
def removeFirst (db : List Record) (r : Record) : List Record :=
  match db with
  | [] => []
  | x :: xs => if x = r then xs else x :: removeFirst xs r

/-- Replace the first occurrence of a record by an updated one (the
committed in-place update of the looked-up object). -/
def replaceFirst (db : List Record) (r r' : Record) : List Record :=
  match db with
  | [] => []
  | x :: xs => if x = r then r' :: xs else x :: replaceFirst xs r r'

/-- The identity dict `item_view` builds from the route arguments: one entry
per identifier column (`kargs.get(prop)`), plus the tenant identifier when
the model is tenant-scoped. -/
def item_ident (is_org : Bool) (current_org_id : Scalar) (ident_prop : List String)
    (kargs : List (String × Scalar)) : List (String × Scalar) :=
  let ident := ident_prop.map (fun p => (p, (kargs.lookup p).getD Scalar.null))
  if is_org then dictSet ident "org_id" current_org_id else ident

/-- The main body of `item_view`: look the record up by the identity dict
(an equality conjunction over all its entries, via `.one()`), answer 404 on
no match with no side effect, and otherwise dispatch on the HTTP method.
The PATCH branch validates the payload against the model schema (partial
mode) and merges it field by field (`import_into_sqla_object`, modelled
from the spec as a field-by-field assignment). -/
def item_view (model : ModelCls) (db : List Record) (is_org : Bool)
    (current_org_id : Scalar) (ident_prop : List String)
    (kargs : List (String × Scalar)) (method : String)
    (payload : Option Json) : ItemResp × List Record :=
  let ident := item_ident is_org current_org_id ident_prop kargs
  match filter_by_one db ident with
  | .error .noResult => (.notFound, db)
  | .error .multiple => (.serverError, db)
  | .ok found =>
    if method = "GET" then (.ok found, db)
    else if method = "DELETE" then (.ok found, removeFirst db found)
    else if method = "PATCH" then
      match payload with
      | some (.obj fs) =>
        let errs := schema_errors "" model fs
        if errs.isEmpty then
          let found' := dictUpdate found (fs.map (fun p => (p.1, jvalToScalar p.2)))
          (.ok found', replaceFirst db found found')
        else (.invalid errs, db)
      | _ => (.invalid [("", "must be of dict type")], db)
    else (.serverError, db)

/-! ### Route generation (`_generate_route_rules` / `add_resource`) -/

/-- The `ident` argument of `add_resource` as Python receives it: either a
single column name (the supported form) or a list of names. -/
inductive IdentVal where
  | str (s : String)
  | list (xs : List String)
deriving DecidableEq, Repr

/-- `type_mapping = {int: "int", str: "string"}` with
`.get(python_type, "string")`. -/
def type_mapping : PyType → String
  | .int => "int"
  | _ => "string"

/-- `getattr(modelcls, column_name)` inside `_generate_route_rules`: the
name must be a string naming a column; a list raises `TypeError`
(`getattr` requires a string attribute name), a non-column name raises
`AttributeError`. -/
def getattr_column (model : ModelCls) : IdentVal → Except String (String × PyType)
  | .str s =>
    match model.colType s with
    | some ty => .ok (s, ty)
    | none => .error "AttributeError"
  | .list _ => .error "TypeError"

/-- Resolve all identifier entries, left to right. -/
def ident_columns (model : ModelCls) : List IdentVal → Except String (List (String × PyType))
  | [] => .ok []
  | i :: rest =>
    match getattr_column model i with
    | .error e => .error e
    | .ok c =>
      match ident_columns model rest with
      | .error e => .error e
      | .ok l => .ok (c :: l)

/-- The path variable rendered for one identifier column,
`f"<\x7b_type\x7d:\x7bcolumn.name\x7d>"` without the trailing comma. -/
def route_piece (c : String × PyType) : String :=
  "<" ++ type_mapping c.2 ++ ":" ++ c.1 ++ ">"

/-- `_generate_route_rules`: the list rule (with the tenant prefix for
organization models), and the item rule built by appending
`<type:name>,` per identifier column and then stripping the final comma. -/
def generate_route_rules (base_url : String) (model : ModelCls)
    (ident_prop : List IdentVal) (is_org : Bool) : Except String (String × String) :=
  let list_rule := if is_org then "/orgs/<aud:orgname>/" ++ base_url else "/" ++ base_url
  match ident_columns model ident_prop with
  | .error e => .error e
  | .ok cols =>
    let item_rule := cols.foldl
      (fun acc c => acc ++ (route_piece c ++ ","))
      (list_rule ++ "/")
    .ok (list_rule, strDropLast item_rule)

/-- The URL computation of `add_resource`: the base URL defaults to the
table name with underscores replaced by dashes
(`"-".join(table_name.split("_"))`), and the identifier columns default to
the primary-key columns, an explicit `ident` being wrapped into a
one-element tuple (`(ident,)`). -/
def resource_route_rules (model : ModelCls) (base_url0 : Option String)
    (ident0 : Option IdentVal) : Except String (String × String) :=
  let base_url := base_url0.getD (joinStrs "-" (splitChar '_' model.tablename))
  let ident : List IdentVal :=
    match ident0 with
    | some i => [i]
    | none => model.primaryKey.map IdentVal.str
  generate_route_rules base_url model ident model.hasOrgId

/-- Stated from the spec's words (for comparison with
`generate_route_rules`): the item URL template appends one
`<type:name>` path variable per identifier column to the list URL,
separated by commas. -/
def spec_item_rule (list_rule : String) (cols : List (String × PyType)) : String :=
  list_rule ++ "/" ++ joinStrs "," (cols.map route_piece)

/-! ### Concrete fixtures used in the theorems and witnesses -/

/-- A tenant-scoped model: `product` with an `org_id` column. -/
def productCls : ModelCls :=
  { tablename := "product",
    columns := [("id", .int), ("org_id", .int), ("name", .str)],
    primaryKey := ["id"] }

/-- A record of tenant 1. -/
def rA : Record := [("id", .int 1), ("org_id", .int 1), ("name", .str "alpha")]

/-- A record of tenant 2. -/
def rB : Record := [("id", .int 2), ("org_id", .int 2), ("name", .str "beta")]

/-- Modelled from the spec: flask's `json_loads` (an external collaborator,
passed to `parse_query_string` as an argument) on the concrete strings the
witnesses use; every other string is treated as undecodable, as `"oops"`
genuinely is. -/
def demoDecode : String → Option Json
  | "\x7b\"org_id\": 2\x7d" => some (.obj [("org_id", .scalar (.int 2))])
  | "\x7b\"name\": 2\x7d" => some (.obj [("name", .scalar (.int 2))])
  | "\x7b\"name\": \"x\"\x7d" => some (.obj [("name", .scalar (.str "x"))])
  | _ => none

/-- A plain model with an integer payload column `n`. -/
def numCls : ModelCls :=
  { tablename := "nums", columns := [("id", .int), ("n", .int)], primaryKey := ["id"] }

/-- Fixture record with `n = 1`. -/
def n1 : Record := [("id", .int 1), ("n", .int 1)]

/-- Fixture record with `n = 12`. -/
def n2 : Record := [("id", .int 2), ("n", .int 12)]

/-- Fixture record with `n = 21`. -/
def n3 : Record := [("id", .int 3), ("n", .int 21)]

/-- Fixture record with `n = 3`. -/
def n4 : Record := [("id", .int 4), ("n", .int 3)]

/-- A composite-key model: `order_line` with primary key
`(order_id, product_id)`. -/
def olCls : ModelCls :=
  { tablename := "order_line",
    columns := [("order_id", .int), ("product_id", .int), ("amount", .int)],
    primaryKey := ["order_id", "product_id"] }

/-- The order line `(5, 9)`. -/
def ol59 : Record := [("order_id", .int 5), ("product_id", .int 9), ("amount", .int 7)]

/-- The order line `(5, 8)`. -/
def ol58 : Record := [("order_id", .int 5), ("product_id", .int 8), ("amount", .int 6)]

/-- The order line `(4, 9)`. -/
def ol49 : Record := [("order_id", .int 4), ("product_id", .int 9), ("amount", .int 5)]

/-- A record with the three fields `a`, `b`, `c`. -/
def rabc : Record := [("a", .int 1), ("b", .int 2), ("c", .int 3)]

/-! ### C1 -/

/-- C1: the claim states that the implicit tenant filter is combined
conjunctively with any client filter and cannot be overridden by a client
filter of the tenant-identifier key.  The code violates this: the client
`filter` modifier is merged with `dict.update`, which replaces the value of
the implicit `org_id` entry.  With current tenant 1 and the accepted client
filter `org_id = 2`, the collection endpoint returns tenant 2's record. -/
theorem c1_tenant_filter_overridden :
    parse_query_string demoDecode productCls [("filter", "\x7b\"org_id\": 2\x7d")] =
      Except.ok { filter := some [("org_id", Scalar.int 2)] } ∧
    collectionCall 30 100 productCls [rA, rB] (Scalar.int 1)
        { filter := some [("org_id", Scalar.int 2)] } =
      Except.ok { items := [rB], total := 1, page := 1 } ∧
    rB.lookup "org_id" = some (Scalar.int 2) ∧
    rA.lookup "org_id" = some (Scalar.int 1) :=
  ⟨rfl, rfl, rfl, rfl⟩

/-! ### C2 -/

/-- C2 counterexample: the `json` decorator pre-validates only `POST`
requests, so a `PATCH` request with a non-JSON content type and an
unparseable body is not rejected with 415/400 — the wrapped view still runs
and its mutation is applied, refuting the claim for PATCH. -/
theorem c2_patch_not_prevalidated :
    json_wrapped { method := "PATCH", isJson := false, jsonSilent := none }
        (fun db => ((), db ++ [rA])) [] =
      (Except.ok (), [rA]) :=
  rfl

/-- C2 (amended): only `POST` requests are pre-validated by the `json`
decorator — a non-JSON content type aborts with 415 and an unparseable
body aborts with 400 before the view function (and any mutation) runs. -/
theorem c2_post_prevalidated {α : Type} (req : Request)
    (view : List Record → α × List Record) (db : List Record)
    (hm : req.method = "POST") :
    (req.isJson = false → json_wrapped req view db = (Except.error 415, db)) ∧
    (req.isJson = true → req.jsonSilent = none →
      json_wrapped req view db = (Except.error 400, db)) := by
  constructor
  · intro h
    simp [json_wrapped, json_precheck, hm, h]
  · intro h1 h2
    simp [json_wrapped, json_precheck, hm, h1, h2]

/-- Witness for the amended C2 theorem at a concrete POST request. -/
theorem c2_post_prevalidated_witness :
    json_wrapped { method := "POST", isJson := false, jsonSilent := none }
        (fun db => ((), db ++ [rA])) [] =
      (Except.error 415, ([] : List Record)) :=
  (c2_post_prevalidated { method := "POST", isJson := false, jsonSilent := none }
    (fun db => ((), db ++ [rA])) [] rfl).1 rfl

/-! ### C3 -/

/-- C3 counterexample: with both `select` and `filter` holding undecodable
values, the parser raises for `select` alone — the decode loop raises on
the first failing key, so the error map does not contain an entry for every
failing key as the claim states. -/
theorem c3_decode_short_circuits :
    demoDecode "oops" = none ∧
    parse_query_string demoDecode productCls [("select", "oops"), ("filter", "oops")] =
      Except.error [("select", "Invalid JSON string")] :=
  ⟨rfl, rfl⟩

/-- Helper: the decode loop reports exactly the first JSON key whose value
fails to decode, provided every earlier JSON-encoded entry decodes. -/
theorem decode_qs_first_bad (loads : String → Option Json)
    (pre post : List (String × String)) (k v : String)
    (hk : json_keys.contains k = true) (hv : loads v = none)
    (hpre : ∀ p ∈ pre, json_keys.contains p.1 = true → (loads p.2).isSome) :
    decode_qs loads (pre ++ (k, v) :: post) =
      Except.error [(k, "Invalid JSON string")] := by
  induction pre with
  | nil =>
    have hk' : k ∈ json_keys := by simpa using hk
    simp [decode_qs, hk', hv]
  | cons p rest ih =>
    have hrest : decode_qs loads (rest ++ (k, v) :: post) =
        Except.error [(k, "Invalid JSON string")] :=
      ih (fun q hq => hpre q (List.mem_cons_of_mem p hq))
    obtain ⟨pk, pv⟩ := p
    by_cases hp : pk ∈ json_keys
    · have hsome : (loads pv).isSome := hpre (pk, pv) (List.mem_cons_self _ _) (by simpa using hp)
      obtain ⟨j, hj⟩ := Option.isSome_iff_exists.mp hsome
      simp [decode_qs, hp, hj, hrest]
    · simp [decode_qs, hp, hrest]

/-- C3 (amended): a JSON decode failure raises immediately — the
`ValidationError` maps only the first query-string key (in query-string
order) whose value fails to decode, and later keys are not examined. -/
theorem c3_first_bad_key_only (loads : String → Option Json) (model : ModelCls)
    (pre post : List (String × String)) (k v : String)
    (hk : json_keys.contains k = true) (hv : loads v = none)
    (hpre : ∀ p ∈ pre, json_keys.contains p.1 = true → (loads p.2).isSome) :
    parse_query_string loads model (pre ++ (k, v) :: post) =
      Except.error [(k, "Invalid JSON string")] := by
  unfold parse_query_string
  rw [decode_qs_first_bad loads pre post k v hk hv hpre]

/-- Witness for the amended C3 theorem: a well-formed `limit` precedes the
bad `filter`, which precedes an equally bad `select`; only `filter` is
reported. -/
theorem c3_first_bad_key_only_witness :
    parse_query_string demoDecode productCls
        [("limit", "5"), ("filter", "oops"), ("select", "oops")] =
      Except.error [("filter", "Invalid JSON string")] :=
  c3_first_bad_key_only demoDecode productCls [("limit", "5")] [("select", "oops")]
    "filter" "oops" rfl rfl (by decide)

/-! ### C4 -/

/-- C4: for every modifier set the pipeline accepts, the number of returned
items is bounded by `effectiveLimit = min(limit ?? defaultLimit, maxLimit)`,
that effective limit never exceeds `maxLimit`, the reported page is
`page ?? 1`, and the items are exactly one page of the processed query,
taken at offset `(page - 1) * effectiveLimit`. -/
theorem c4_pagination_bounds (default_limit max_limit : Int) (model : ModelCls)
    (db : List Record) (org : Scalar) (m : Modifiers) (r : CollectionResult)
    (h : collectionCall default_limit max_limit model db org m = Except.ok r) :
    r.items.length ≤ (min (m.limit.getD default_limit) max_limit).toNat ∧
    min (m.limit.getD default_limit) max_limit ≤ max_limit ∧
    r.page = m.page.getD 1 ∧
    ∃ (q : List Record) (incl excl : List String),
      r.items =
        ((q.drop ((m.page.getD 1 - 1) * min (m.limit.getD default_limit) max_limit).toNat).take
            (min (m.limit.getD default_limit) max_limit).toNat).map
          (export_record incl excl) := by
  unfold collectionCall at h
  cases hprep : collectionPrepare model db org m with
  | error e =>
    rw [hprep] at h
    exact absurd h (by simp)
  | ok q3 =>
    rw [hprep] at h
    cases h
    refine ⟨?_, min_le_right _ _, rfl, q3, _, _, rfl⟩
    simp [paginate, List.length_take]

/-- Witness for C4 at a concrete request: `limit=2`, `page=2` over four
records yields the two records at offset 2. -/
theorem c4_pagination_bounds_witness :
    ([n3, n4] : List Record).length ≤ ((2 : Int)).toNat ∧
    (2 : Int) ≤ 100 ∧
    (2 : Int) = 2 ∧
    ∃ (q : List Record) (incl excl : List String),
      ([n3, n4] : List Record) = ((q.drop 2).take (2 : Int).toNat).map (export_record incl excl) :=
  c4_pagination_bounds 30 100 numCls [n1, n2, n3, n4] (Scalar.int 0)
    { limit := some 2, page := some 2 } { items := [n3, n4], total := 4, page := 2 } rfl

/-! ### C5 -/

/-- C5: field projection splits the select mapping into the include-list
(truthy flags) and the exclude-list (falsy flags), both possibly non-empty
at once; on a record with fields `a, b, c`, `select={"a":1}` projects to
exactly `{a}` and `select={"a":0}` to exactly `{b, c}`. -/
theorem c5_select_projection :
    (∀ sel : List (String × Scalar),
        (parse_select_modifier sel).1 = (sel.filter (fun p => pyTruthy p.2)).map Prod.fst ∧
        (parse_select_modifier sel).2 = (sel.filter (fun p => !pyTruthy p.2)).map Prod.fst) ∧
    export_record (parse_select_modifier [("a", Scalar.int 1)]).1
        (parse_select_modifier [("a", Scalar.int 1)]).2 rabc = [("a", Scalar.int 1)] ∧
    export_record (parse_select_modifier [("a", Scalar.int 0)]).1
        (parse_select_modifier [("a", Scalar.int 0)]).2 rabc =
      [("b", Scalar.int 2), ("c", Scalar.int 3)] ∧
    parse_select_modifier [("a", Scalar.int 1), ("b", Scalar.int 0)] = (["a"], ["b"]) := by
  refine ⟨fun sel => ?_, rfl, rfl, rfl⟩
  induction sel with
  | nil => exact ⟨rfl, rfl⟩
  | cons hd tl ih =>
    obtain ⟨k, flag⟩ := hd
    by_cases h : pyTruthy flag
    · simp [parse_select_modifier, List.filter, h, ih.1, ih.2]
    · simp [parse_select_modifier, List.filter, h, ih.1, ih.2]

/-! ### C6 -/

/-- C6 counterexample: a `select` entry whose value is the integer `2` — not
a boolean — is accepted by query-string parsing (the schema demands
`{"type": "integer"}`, not a boolean), refuting the claim that non-boolean
values are rejected with a `ValidationError`. -/
theorem c6_select_integer_accepted :
    parse_query_string demoDecode productCls [("select", "\x7b\"name\": 2\x7d")] =
      Except.ok { select := some [("name", Scalar.int 2)] } :=
  rfl

/-! ### C7 -/

/-- Helper: resolving the search fields preserves the field names. -/
theorem search_columns_names (model : ModelCls) :
    ∀ (f : List String) (tys : List (String × PyType)),
      search_columns model f = .ok tys → tys.map Prod.fst = f := by
  intro f
  induction f with
  | nil =>
    intro tys h
    cases h
    rfl
  | cons cn rest ih =>
    intro tys h
    unfold search_columns at h
    cases hc : model.colType cn with
    | none => rw [hc] at h; cases h
    | some ty =>
      rw [hc] at h
      cases hr : search_columns model rest with
      | error e => rw [hr] at h; cases h
      | ok l =>
        rw [hr] at h
        cases h
        simpa using ih l hr

/-- Helper: a disjunction over resolved columns only looks at the names. -/
theorem any_on_names (P : String → Bool) :
    ∀ tys : List (String × PyType),
      (tys.any (fun ct => P ct.1)) = (tys.map Prod.fst).any P := by
  intro tys
  induction tys with
  | nil => rfl
  | cons hd tl ih => simp [List.any, ih]

/-- C7: the search stage keeps exactly the records for which some listed
field's textual representation contains the term case-insensitively
(`%term%` semantics, non-string columns compared via their text rendering),
and the stage composes conjunctively with the filter stage.  Concretely,
term `"1"` over the integer field `n` matches 1, 12 and 21 but not 3,
intersecting it with `filter={"id":1}` leaves only the `n = 1` record, and
the match is case-insensitive. -/
theorem c7_search_semantics :
    (∀ (model : ModelCls) (q : List Record) (s : Search) (res : List Record),
        search_modifier model q s = Except.ok res →
        ∀ r : Record, r ∈ res ↔ r ∈ q ∧
          s.f.any (fun cn =>
            ilikeMatch (textRepr ((r.lookup cn).getD Scalar.null)) (pyStr s.t)) = true) ∧
    collectionCall 30 100 numCls [n1, n2, n3, n4] (Scalar.int 0)
        { search := some { t := .str "1", f := ["n"] } } =
      Except.ok { items := [n1, n2, n3], total := 3, page := 1 } ∧
    collectionCall 30 100 numCls [n1, n2, n3, n4] (Scalar.int 0)
        { search := some { t := .str "1", f := ["n"] },
          filter := some [("id", Scalar.int 1)] } =
      Except.ok { items := [n1], total := 1, page := 1 } ∧
    ilikeMatch "xABcy" "abC" = true := by
  refine ⟨?_, rfl, rfl, rfl⟩
  intro model q s res h r
  unfold search_modifier at h
  cases hsc : search_columns model s.f with
  | error e => rw [hsc] at h; cases h
  | ok tys =>
    rw [hsc] at h
    cases h
    have hnames := search_columns_names model s.f tys hsc
    rw [List.mem_filter]
    unfold search_pred
    rw [any_on_names (fun cn =>
      ilikeMatch (textRepr ((r.lookup cn).getD Scalar.null)) (pyStr s.t)) tys, hnames]

/-- Witness for C7 at the concrete search: the record with `n = 12` is in
the result because its textual value contains `"1"`. -/
theorem c7_search_semantics_witness :
    n2 ∈ ([n1, n2, n3] : List Record) ↔
      n2 ∈ ([n1, n2, n3, n4] : List Record) ∧
      (["n"] : List String).any (fun cn =>
        ilikeMatch (textRepr ((n2.lookup cn).getD Scalar.null))
          (pyStr (Scalar.str "1"))) = true :=
  c7_search_semantics.1 numCls [n1, n2, n3, n4] { t := .str "1", f := ["n"] }
    [n1, n2, n3] rfl n2

/-! ### C8 -/

/-- Helper: a successful `.one()` lookup returns a stored record satisfying
every identity equality. -/
theorem filter_by_one_ok (db : List Record) (ident : List (String × Scalar))
    (r : Record) (h : filter_by_one db ident = .ok r) :
    r ∈ db ∧ ∀ p ∈ ident, r.lookup p.1 = some p.2 := by
  unfold filter_by_one at h
  cases hf : db.filter (fun rr => ident.all (fun p => rr.lookup p.1 = some p.2)) with
  | nil => rw [hf] at h; cases h
  | cons a t =>
    cases t with
    | nil =>
      rw [hf] at h
      cases h
      have ha : r ∈ db.filter (fun rr => ident.all (fun p => rr.lookup p.1 = some p.2)) := by
        rw [hf]; exact List.mem_singleton.mpr rfl
      rw [List.mem_filter] at ha
      refine ⟨ha.1, ?_⟩
      have := List.all_eq_true.mp ha.2
      intro p hp
      simpa using this p hp
    | cons b t' => rw [hf] at h; cases h

/-- C8: an item request looks up exactly the record whose identifier
columns (plus the tenant identifier when tenant-scoped) simultaneously
equal the route values; on no match it answers not-found with no side
effect.  Concretely, the composite route values `5,9` select the
`(order_id 5, product_id 9)` record and not any other combination, and the
values `6,9` yield not-found with the database unchanged. -/
theorem c8_item_lookup (model : ModelCls) (db : List Record) (is_org : Bool)
    (org : Scalar) (ident_prop : List String) (kargs : List (String × Scalar))
    (method : String) (payload : Option Json) :
    (db.filter (fun rec => (item_ident is_org org ident_prop kargs).all
        (fun p => rec.lookup p.1 = some p.2)) = [] →
      item_view model db is_org org ident_prop kargs method payload = (.notFound, db)) ∧
    (∀ (r : Record) (db' : List Record),
      item_view model db is_org org ident_prop kargs "GET" payload = (.ok r, db') →
      db' = db ∧ r ∈ db ∧
        ∀ p ∈ item_ident is_org org ident_prop kargs, r.lookup p.1 = some p.2) ∧
    item_view olCls [ol58, ol59, ol49] false (Scalar.int 0) ["order_id", "product_id"]
        [("order_id", Scalar.int 5), ("product_id", Scalar.int 9)] "GET" none =
      (.ok ol59, [ol58, ol59, ol49]) ∧
    item_view olCls [ol58, ol59, ol49] false (Scalar.int 0) ["order_id", "product_id"]
        [("order_id", Scalar.int 6), ("product_id", Scalar.int 9)] "GET" none =
      (.notFound, [ol58, ol59, ol49]) := by
  refine ⟨?_, ?_, rfl, rfl⟩
  · intro hempty
    have hfbo : filter_by_one db (item_ident is_org org ident_prop kargs) =
        Except.error OneErr.noResult := by
      unfold filter_by_one
      rw [hempty]
    simp only [item_view]
    rw [hfbo]
  · intro r db' h
    simp only [item_view] at h
    cases hone : filter_by_one db (item_ident is_org org ident_prop kargs) with
    | error e =>
      rw [hone] at h
      cases e <;> simp at h
    | ok found =>
      rw [hone] at h
      simp at h
      obtain ⟨hr, hdb⟩ := h
      subst hr
      subst hdb
      have hres := filter_by_one_ok db (item_ident is_org org ident_prop kargs) found hone
      exact ⟨rfl, hres.1, hres.2⟩

/-- Witness for C8 at the concrete composite-key lookup. -/
theorem c8_item_lookup_witness :
    [ol58, ol59, ol49] = [ol58, ol59, ol49] ∧ ol59 ∈ [ol58, ol59, ol49] ∧
      ∀ p ∈ item_ident false (Scalar.int 0) ["order_id", "product_id"]
          [("order_id", Scalar.int 5), ("product_id", Scalar.int 9)],
        ol59.lookup p.1 = some p.2 :=
  (c8_item_lookup olCls [ol58, ol59, ol49] false (Scalar.int 0)
      ["order_id", "product_id"]
      [("order_id", Scalar.int 5), ("product_id", Scalar.int 9)] "GET" none).2.1
    ol59 [ol58, ol59, ol49] rfl

/-! ### C10 -/

/-- Helper: splitting on a character that does not occur yields the whole
list. -/
theorem splitCharAux_no_sep (c : Char) (l : List Char) (h : c ∉ l) :
    splitCharAux c l = [l] := by
  induction l with
  | nil => rfl
  | cons x xs ih =>
    have hx : ¬ x = c := fun e => h (e ▸ List.mem_cons_self x xs)
    simp [splitCharAux, hx, ih (fun hm => h (List.mem_cons_of_mem x hm))]

/-- Helper: Python `s.split(c)` with no separator occurrence is `[s]`. -/
theorem splitChar_no_sep (c : Char) (s : String) (h : c ∉ s.data) :
    splitChar c s = [s] := by
  simp [splitChar, splitCharAux_no_sep c s.data h]

/-- C10: the `sort` modifier is never validated against the schema — the
parser accepts any string for `sort` — and a sort entry naming a column
that does not exist on the model makes the sort stage fail with an
attribute-lookup error (propagated out of the pipeline), not with a
`ValidationError`. -/
theorem c10_sort_unvalidated (loads : String → Option Json) (model : ModelCls)
    (q : List Record) (s c : String)
    (hnc : ',' ∉ c.data) (hdash : strStartsDash c = false)
    (hc : model.colType c = none) :
    parse_query_string loads model [("sort", s)] = Except.ok { sort := some s } ∧
    sort_modifier model q c = Except.error "AttributeError" ∧
    collectionCall 30 100 numCls [n1, n2, n3, n4] (Scalar.int 0) { sort := some "bogus" } =
      Except.error "AttributeError" := by
  refine ⟨rfl, ?_, rfl⟩
  unfold sort_modifier
  rw [splitChar_no_sep ',' c hnc]
  simp [sort_keys, hdash, hc]

/-- Witness for C10 at a concrete unknown column name. -/
theorem c10_sort_unvalidated_witness :
    parse_query_string demoDecode numCls [("sort", "anything")] =
      Except.ok { sort := some "anything" } ∧
    sort_modifier numCls [n1] "bogus" = Except.error "AttributeError" ∧
    collectionCall 30 100 numCls [n1, n2, n3, n4] (Scalar.int 0) { sort := some "bogus" } =
      Except.error "AttributeError" :=
  c10_sort_unvalidated demoDecode numCls [n1] "anything" "bogus" (by decide) rfl rfl

/-- Helper: a fold that appends per-entry error lists is empty only when
the accumulator and every entry's error list are empty. -/
theorem foldl_append_nil {β : Type} (f : β → List (String × String)) :
    ∀ (d : List β) (acc : List (String × String)),
      d.foldl (fun a e => a ++ f e) acc = [] → acc = [] ∧ ∀ e ∈ d, f e = [] := by
  intro d
  induction d with
  | nil =>
    intro acc h
    exact ⟨h, by simp⟩
  | cons e rest ih =>
    intro acc h
    obtain ⟨hae, hrest⟩ := ih (acc ++ f e) h
    obtain ⟨hacc, hfe⟩ := List.append_eq_nil.mp hae
    refine ⟨hacc, fun e' he' => ?_⟩
    rcases List.mem_cons.mp he' with rfl | hmem
    · exact hfe
    · exact hrest e' hmem

/-- Helper: if validation accepted the whole query string, every entry
validated cleanly. -/
theorem validate_qs_nil (model : ModelCls) (d : List (String × QVal))
    (h : validate_qs model d = []) : ∀ e ∈ d, validate_entry model e = [] :=
  (foldl_append_nil (validate_entry model) d [] h).2

/-- Helper: a normalization step either leaves the select modifier alone or
comes from a decoded `select` object. -/
theorem normalize_step_select (m : Modifiers) (e : String × QVal) :
    (normalize_step m e).select = m.select ∨
      ∃ fs, e = ("select", QVal.json (Json.obj fs)) ∧
        (normalize_step m e).select = some (fs.map (fun p => (p.1, jvalToScalar p.2))) := by
  obtain ⟨k, qv⟩ := e
  unfold normalize_step
  by_cases h1 : k = "select"
  · subst h1
    cases qv with
    | json j =>
      cases j with
      | obj fs =>
        right
        exact ⟨fs, rfl, by simp⟩
      | scalar v => left; simp
      | arr xs => left; simp
    | raw s => left; simp
  · left
    simp only [h1, if_false]
    split
    · split <;> rfl
    · split
      · split <;> rfl
      · split
        · split <;> rfl
        · split
          · split <;> rfl
          · split
            · split <;> rfl
            · rfl

/-- Helper: the select modifier of a normalized query string always comes
from a decoded `select` entry of the query string. -/
theorem normalize_select_origin (d : List (String × QVal)) :
    ∀ (m0 : Modifiers) (sel : List (String × Scalar)),
      (d.foldl normalize_step m0).select = some sel →
      (∃ fs, ("select", QVal.json (Json.obj fs)) ∈ d ∧
        sel = fs.map (fun p => (p.1, jvalToScalar p.2))) ∨ m0.select = some sel := by
  induction d with
  | nil =>
    intro m0 sel h
    right
    exact h
  | cons e rest ih =>
    intro m0 sel h
    rcases ih (normalize_step m0 e) sel h with hin | hstep
    · left
      obtain ⟨fs, hfs, hsel⟩ := hin
      exact ⟨fs, List.mem_cons_of_mem _ hfs, hsel⟩
    · rcases normalize_step_select m0 e with heq | ⟨fs, he, hsome⟩
      · right
        rw [← heq]
        exact hstep
      · left
        refine ⟨fs, ?_, ?_⟩
        · rw [he]
          exact List.mem_cons_self _ _
        · rw [hsome] at hstep
          exact (Option.some_inj.mp hstep).symm

/-- Helper: the select entry validates cleanly exactly when every key is a
column name and every value an integer. -/
theorem select_errors_nil (model : ModelCls) :
    ∀ fs : List (String × JVal),
      select_errors model fs = [] ↔
        ∀ p ∈ fs, model.colNames.contains p.1 = true ∧ isIntegerJV p.2 = true := by
  intro fs
  induction fs with
  | nil => simp [select_errors]
  | cons p rest ih =>
    obtain ⟨k, v⟩ := p
    by_cases h1 : k ∈ model.colNames
    · by_cases h2 : isIntegerJV v = true
      · simp [select_errors, h1, h2, ih]
      · simp [select_errors, h1, h2]
    · simp [select_errors, h1]

/-- C6 (amended): query-string parsing accepts a `select` modifier only
when every key is a valid column name of the target schema and every value
is an *integer* — the schema rule is `{"type": "integer"}`, Python booleans
counting as integers but any other integer being accepted as well — and a
decoded `select` object containing a non-column key or a non-integer value
is rejected with a `ValidationError`. -/
theorem c6_select_validation (loads : String → Option Json) (model : ModelCls) :
    (∀ (qs : List (String × String)) (m : Modifiers) (sel : List (String × Scalar)),
        parse_query_string loads model qs = Except.ok m →
        m.select = some sel →
        ∃ fs : List (String × JVal),
          sel = fs.map (fun p => (p.1, jvalToScalar p.2)) ∧
          ∀ p ∈ fs, model.colNames.contains p.1 = true ∧ isIntegerJV p.2 = true) ∧
    (∀ (s : String) (fs : List (String × JVal)),
        loads s = some (Json.obj fs) →
        ¬ (∀ p ∈ fs, model.colNames.contains p.1 = true ∧ isIntegerJV p.2 = true) →
        ∃ errs, parse_query_string loads model [("select", s)] = Except.error errs) := by
  constructor
  · intro qs m sel hok hsel
    unfold parse_query_string at hok
    split at hok
    · cases hok
    · rename_i d hdec
      split at hok
      · rename_i herrs
        cases hok
        have hsel' : (d.foldl normalize_step {}).select = some sel := hsel
        rcases normalize_select_origin d {} sel hsel' with hin | h0
        · obtain ⟨fs, hmem, hselval⟩ := hin
          refine ⟨fs, hselval, ?_⟩
          have hent := validate_qs_nil model d (List.isEmpty_iff.mp herrs)
            ("select", .json (.obj fs)) hmem
          exact (select_errors_nil model fs).mp hent
        · cases h0
      · cases hok
  · intro s fs hdecs hbad
    have hsel : "select" ∈ json_keys := by decide
    have hdec : decode_qs loads [("select", s)] =
        .ok [("select", QVal.json (Json.obj fs))] := by
      simp [decode_qs, hsel, hdecs]
    have herrs : validate_qs model [("select", QVal.json (Json.obj fs))] =
        select_errors model fs := rfl
    have hne : select_errors model fs ≠ [] :=
      fun hnil => hbad ((select_errors_nil model fs).mp hnil)
    refine ⟨select_errors model fs, ?_⟩
    have hstep : parse_query_string loads model [("select", s)] =
        (if (validate_qs model [("select", QVal.json (Json.obj fs))]).isEmpty
         then Except.ok (normalize_qs [("select", QVal.json (Json.obj fs))])
         else Except.error (validate_qs model [("select", QVal.json (Json.obj fs))])) := by
      unfold parse_query_string
      rw [hdec]
    rw [hstep, herrs, if_neg (by simpa [List.isEmpty_iff] using hne)]

/-- Witness for the amended C6 theorem: the accepted `select` with the
integer value 2 on the column `name` satisfies the characterization. -/
theorem c6_select_validation_witness :
    ∃ fs : List (String × JVal),
      ([("name", Scalar.int 2)] : List (String × Scalar)) =
        fs.map (fun p => (p.1, jvalToScalar p.2)) ∧
      ∀ p ∈ fs, productCls.colNames.contains p.1 = true ∧ isIntegerJV p.2 = true :=
  (c6_select_validation demoDecode productCls).1 [("select", "\x7b\"name\": 2\x7d")]
    { select := some [("name", Scalar.int 2)] } [("name", Scalar.int 2)] rfl rfl

/-! ### C9 -/

/-- C9 counterexample: overriding the identifier columns with a *list* of
column names is not supported — `add_resource` wraps the argument in a
one-element tuple, so route generation calls `getattr` with a list and
fails with a `TypeError` instead of producing an item URL. -/
theorem c9_ident_list_unsupported :
    resource_route_rules olCls none (some (.list ["order_id", "product_id"])) =
      Except.error "TypeError" :=
  rfl

/-- Helper: two strings with the same character data are equal. -/
theorem strEqOfData (a b : String) (h : a.data = b.data) : a = b := by
  cases a
  cases b
  exact congrArg String.mk h

/-- The item-rule tail as the source's loop accumulates it: one
`<type:name>,` per column, every piece followed by a comma. -/
def routeTrail : List (String × PyType) → String
  | [] => ""
  | c :: rest => route_piece c ++ "," ++ routeTrail rest

/-- Helper: the source's fold appends exactly the comma-trailed pieces. -/
theorem route_fold (cols : List (String × PyType)) :
    ∀ a : String,
      cols.foldl (fun acc c => acc ++ (route_piece c ++ ",")) a = a ++ routeTrail cols := by
  induction cols with
  | nil =>
    intro a
    exact (strEqOfData _ _ (by simp [routeTrail, String.data_append])).symm
  | cons c rest ih =>
    intro a
    rw [List.foldl_cons, ih]
    exact strEqOfData _ _ (by simp [routeTrail, String.data_append, List.append_assoc])

/-- Helper: dropping the final comma of the accumulated tail yields the
comma-separated join of the pieces (character-list core). -/
theorem routeTrail_dropLast :
    ∀ cols : List (String × PyType), cols ≠ [] →
      ∀ l : List Char,
        (l ++ (routeTrail cols).data).dropLast =
          l ++ (joinStrs "," (cols.map route_piece)).data := by
  intro cols
  induction cols with
  | nil => exact fun hne => absurd rfl hne
  | cons c rest ih =>
    intro _ l
    cases rest with
    | nil =>
      show (l ++ (route_piece c ++ "," ++ routeTrail []).data).dropLast = _
      simp only [routeTrail, String.data_append,
        show ("," : String).data = [','] from rfl,
        show (("" : String)).data = [] from rfl, List.append_nil]
      rw [← List.append_assoc, List.dropLast_concat]
      simp [joinStrs, List.map]
    | cons c' rest' =>
      show (l ++ (route_piece c ++ "," ++ routeTrail (c' :: rest')).data).dropLast = _
      simp only [String.data_append, show ("," : String).data = [','] from rfl]
      have hrw : l ++ ((route_piece c).data ++ [','] ++ (routeTrail (c' :: rest')).data) =
          (l ++ (route_piece c).data ++ [',']) ++ (routeTrail (c' :: rest')).data := by
        simp [List.append_assoc]
      rw [hrw, ih (by simp) (l ++ (route_piece c).data ++ [','])]
      simp [joinStrs, List.map, String.data_append,
        show ("," : String).data = [','] from rfl, List.append_assoc]

/-- Helper: on resolvable, non-empty identifier columns, the generated item
rule is exactly the spec's comma-separated template. -/
theorem generate_rules_spec (base_url : String) (model : ModelCls)
    (ident_prop : List IdentVal) (is_org : Bool) (cols : List (String × PyType))
    (hcols : ident_columns model ident_prop = .ok cols) (hne : cols ≠ []) :
    generate_route_rules base_url model ident_prop is_org =
      .ok (let list_rule :=
             if is_org then "/orgs/<aud:orgname>/" ++ base_url else "/" ++ base_url
           (list_rule, spec_item_rule list_rule cols)) := by
  unfold generate_route_rules
  rw [hcols]
  have hfold := route_fold cols
    ((if is_org then "/orgs/<aud:orgname>/" ++ base_url else "/" ++ base_url) ++ "/")
  simp only [hfold]
  have hdrop : strDropLast
      (((if is_org then "/orgs/<aud:orgname>/" ++ base_url else "/" ++ base_url) ++ "/") ++
        routeTrail cols) =
      spec_item_rule
        (if is_org then "/orgs/<aud:orgname>/" ++ base_url else "/" ++ base_url) cols := by
    apply strEqOfData
    show (((if is_org then "/orgs/<aud:orgname>/" ++ base_url
        else "/" ++ base_url) ++ "/").data ++ (routeTrail cols).data).dropLast = _
    rw [routeTrail_dropLast cols hne]
    simp [spec_item_rule, String.data_append]
  rw [hdrop]

/-- C9 (amended): route generation derives the list URL from the table name
with underscores replaced by dashes unless a base URL is supplied, and the
item URL appends one `<type:name>` path variable per identifier column —
defaulting to the primary-key columns, overridable by a *single* explicit
identifier column name (a list of several names is not supported and fails
route generation) — typed `int` for integer columns and `string` otherwise,
comma-separated when there are several. -/
theorem c9_route_generation (model : ModelCls) (cols : List (String × PyType))
    (hpk : ident_columns model (model.primaryKey.map IdentVal.str) = .ok cols)
    (hne : cols ≠ []) :
    (∀ b0 : Option String,
      resource_route_rules model b0 none =
        .ok (let base := b0.getD (joinStrs "-" (splitChar '_' model.tablename))
             let list_rule :=
               if model.hasOrgId then "/orgs/<aud:orgname>/" ++ base else "/" ++ base
             (list_rule, spec_item_rule list_rule cols))) ∧
    (∀ (c : String) (ty : PyType), model.colType c = some ty →
      resource_route_rules model none (some (.str c)) =
        .ok (let base := joinStrs "-" (splitChar '_' model.tablename)
             let list_rule :=
               if model.hasOrgId then "/orgs/<aud:orgname>/" ++ base else "/" ++ base
             (list_rule, spec_item_rule list_rule [(c, ty)]))) ∧
    type_mapping PyType.int = "int" ∧ type_mapping PyType.str = "string" := by
  refine ⟨?_, ?_, rfl, rfl⟩
  · intro b0
    unfold resource_route_rules
    exact generate_rules_spec _ model _ model.hasOrgId cols hpk hne
  · intro c ty hty
    unfold resource_route_rules
    apply generate_rules_spec
    · simp [ident_columns, getattr_column, hty]
    · simp

/-- Witness for the amended C9 theorem: the composite-key `order_line`
model yields `/order-line` and
`/order-line/<int:order_id>,<int:product_id>`. -/
theorem c9_route_generation_witness :
    resource_route_rules olCls none none =
      Except.ok ("/order-line", "/order-line/<int:order_id>,<int:product_id>") := by
  have h := (c9_route_generation olCls
    [("order_id", PyType.int), ("product_id", PyType.int)] rfl (by simp)).1 none
  exact h

end Saraki
